import Mathlib

/-!
Shallow embedding of `haystack/database/elasticsearch.py`
(`ElasticsearchDocumentStore`) and proofs about its query translation and
result projection layer.

Conventions of the embedding:
  - Elasticsearch relevance scores are modelled as rationals.
  - A Python dict holding document source fields is modelled as an
    insertion-ordered association list with unique keys; `dict.pop(k)` and
    `dict[k]` raise `KeyError` on a missing key, modelled by `Except`.
  - Python exceptions are modelled by `Except String`; a function that can
    raise returns `Except String α`.
  - In-place mutation of a hit source dict (`hit["_source"].pop(...)`) is
    made explicit: the projection functions return the post-call hit list
    alongside their result.
-/

deriving instance DecidableEq for Except

namespace Haystack

/-- A document source mapping (Python dict of field name to field value),
as an insertion-ordered association list. -/
abbrev Source := List (String × String)

/-- Python `d[k]` on a dict: the value, or a `KeyError`. -/
def Source.get (s : Source) (k : String) : Except String String :=
  match s.lookup k with
  | some v => .ok v
  | none => .error ("KeyError: " ++ k)

/-- Remove a key from a dict (order of the remaining entries preserved). -/
def Source.eraseKey (s : Source) (k : String) : Source :=
  s.filter fun kv => kv.1 ≠ k

/-- Python `d.pop(k)`: the value together with the dict after removal, or a
`KeyError`. -/
def Source.pop (s : Source) (k : String) : Except String (String × Source) :=
  match s.lookup k with
  | some v => .ok (v, s.eraseKey k)
  | none => .error ("KeyError: " ++ k)

/-- One inner hit of a nested query result: its own source fields and its
own relevance score (`inner_hit["_source"]`, `inner_hit["_score"]`). -/
structure InnerHit where
  score : ℚ
  source : Source
deriving DecidableEq, Repr

/-- One backend hit: id (`hit["_id"]`), relevance score (`hit["_score"]`),
source fields (`hit["_source"]`), and, for nested queries, the inner hits
stored under `hit["inner_hits"][nested_path]["hits"]["hits"]`. -/
structure Hit where
  hitId : String
  score : ℚ
  source : Source
  innerHits : List InnerHit
deriving DecidableEq, Repr

/-- The metadata record built by `extract_paragraphs` and
`extract_paragraphs_nested`. -/
structure Meta where
  paragraph_id : String
  document_id : String
  document_name : String
  score : ℚ
  custom_meta : Source
deriving DecidableEq, Repr

/-- The configuration a store instance carries after `__init__` resolved the
field mapping (lines 51-74 of the source). -/
structure StoreConfig where
  search_fields : List String
  text_field : String
  name_field : String
  doc_id_field : String
  is_nested : Bool
  nested_path : String
  embedding_field : Option String
  excluded_meta_data : Option (List String)
deriving DecidableEq, Repr

/-! ### Nested result projection (`extract_paragraphs_nested`, lines 186-211)

The source builds `paragraphs` and `meta_data` in lockstep inside one nested
loop, zips them, sorts by score descending (Python `list.sort` is stable),
truncates to `top_k`, and finally unpacks `zip(*zipped)` back into two lists
— an unpacking that raises `ValueError` when `zipped` is empty. -/

/-- The (text, meta) pairs one outer hit contributes: one per inner hit, with
`paragraph_id` from the outer hit and the other fields from the inner hit.
Field reads are plain dict indexing, so a missing field is a `KeyError`. -/
def nestedInnerPairs (cfg : StoreConfig) (hit : Hit) : Except String (List (String × Meta)) :=
  go hit.innerHits
where
  go : List InnerHit → Except String (List (String × Meta))
    | [] => .ok []
    | ih :: rest =>
      match ih.source.get cfg.text_field with
      | .error e => .error e
      | .ok text =>
        match ih.source.get cfg.doc_id_field with
        | .error e => .error e
        | .ok did =>
          match ih.source.get cfg.name_field with
          | .error e => .error e
          | .ok dname =>
            match go rest with
            | .error e => .error e
            | .ok tail =>
              .ok ((text, { paragraph_id := hit.hitId, document_id := did,
                            document_name := dname, score := ih.score,
                            custom_meta := ih.source }) :: tail)

/-- The flattened (text, meta) list over all outer hits, in loop order
(the content of `zipped` before sorting). -/
def flattenNestedPairs (cfg : StoreConfig) : List Hit → Except String (List (String × Meta))
  | [] => .ok []
  | hit :: rest =>
    match nestedInnerPairs cfg hit with
    | .error e => .error e
    | .ok ps =>
      match flattenNestedPairs cfg rest with
      | .error e => .error e
      | .ok tail => .ok (ps ++ tail)

/-- Stable insertion of a pair into a list already sorted by score
descending: the new element goes before the first strictly smaller score,
after earlier elements of equal score. -/
def insertPairDesc (x : String × Meta) : List (String × Meta) → List (String × Meta)
  | [] => [x]
  | y :: ys => if y.2.score ≤ x.2.score then x :: y :: ys else y :: insertPairDesc x ys

/-- Stable sort by score descending, as performed by
`zipped.sort(key=lambda x: x[1]["score"], reverse=True)` (Python `list.sort`
is a stable sort; `reverse=True` keeps equal keys in original order). -/
def sortPairsDesc : List (String × Meta) → List (String × Meta)
  | [] => []
  | x :: xs => insertPairDesc x (sortPairsDesc xs)

/-- `extract_paragraphs_nested(result, top_k)` (lines 186-211). The final
`paragraphs, meta_data = zip(*zipped)` raises a `ValueError` when the
truncated `zipped` list is empty (e.g. on a zero-hit result), because
`zip()` yields nothing to unpack into two names. -/
def extract_paragraphs_nested (cfg : StoreConfig) (result : List Hit) (top_k : ℕ) :
    Except String (List String × List Meta) :=
  match flattenNestedPairs cfg result with
  | .error e => .error e
  | .ok pairs =>
    match (sortPairsDesc pairs).take top_k with
    | [] => .error "ValueError: not enough values to unpack (expected 2, got 0)"
    | taken => .ok (taken.map Prod.fst, taken.map Prod.snd)

/-! ### Flat result projection (`extract_paragraphs`, lines 168-184)

The source pops the text field out of each hit source dict in place, reads
the document id and name fields, and stores the very same (now mutated)
source dict as `custom_meta`. The embedding's explicit-state rendering also
returns the hit list after the pops. -/

/-- `extract_paragraphs(result)` (lines 168-184), returning
(paragraphs, meta_data, result after the in-place pops). -/
def extract_paragraphs (cfg : StoreConfig) : List Hit →
    Except String (List String × List Meta × List Hit)
  | [] => .ok ([], [], [])
  | hit :: rest =>
    match hit.source.pop cfg.text_field with
    | .error e => .error e
    | .ok (text, src) =>
      match src.get cfg.doc_id_field with
      | .error e => .error e
      | .ok did =>
        match src.get cfg.name_field with
        | .error e => .error e
        | .ok dname =>
          match extract_paragraphs cfg rest with
          | .error e => .error e
          | .ok (ps, ms, hs) =>
            .ok (text :: ps,
                 { paragraph_id := hit.hitId, document_id := did,
                   document_name := dname, score := hit.score,
                   custom_meta := src } :: ms,
                 { hit with source := src } :: hs)

/-! ### Embedding-query result projection (`query_by_embedding`, lines 257-275)

The metadata built in the embedding path is a Python dict: the code first
sets the promoted keys (`paragraph_id`, `document_id`, `document_name`,
`score`, the last being the backend score minus 1) and then runs
`cur_meta.update(hit["_source"])` with the residual source dict — a merge
that OVERWRITES any promoted key that also remains in the residual source
(e.g. a stored field literally named `score`). -/

/-- A value held in the embedding-path metadata dict: a string field value
or the numeric adjusted score. -/
inductive PyVal where
  | str (s : String)
  | num (q : ℚ)
deriving DecidableEq, Repr

/-- The metadata dict built by the embedding projection. -/
abbrev MetaDict := List (String × PyVal)

/-- Python `d[k] = v`: overwrite an existing entry in place (its position
is preserved), or append a new key at the end. -/
def MetaDict.setKey (d : MetaDict) (k : String) (v : PyVal) : MetaDict :=
  if d.any fun kv => kv.1 = k then
    d.map fun kv => if kv.1 = k then (k, v) else kv
  else d ++ [(k, v)]

/-- Python `cur_meta.update(other)`: set every key of `other` in insertion
order, overwriting keys already present. -/
def MetaDict.update (d : MetaDict) (other : Source) : MetaDict :=
  other.foldl (fun acc kv => MetaDict.setKey acc kv.1 (.str kv.2)) d

/-- The result-projection loop of `query_by_embedding` (lines 258-275):
pop the text field, pop the document id and name fields, build the dict
with the promoted keys (score = backend score minus 1), then merge the
remaining source fields over it via `update`; also returns the hit list
after the in-place pops. -/
def embExtract (cfg : StoreConfig) : List Hit →
    Except String (List String × List MetaDict × List Hit)
  | [] => .ok ([], [], [])
  | hit :: rest =>
    match hit.source.pop cfg.text_field with
    | .error e => .error e
    | .ok (text, s1) =>
      match s1.pop cfg.doc_id_field with
      | .error e => .error e
      | .ok (did, s2) =>
        match s2.pop cfg.name_field with
        | .error e => .error e
        | .ok (dname, s3) =>
          match embExtract cfg rest with
          | .error e => .error e
          | .ok (ps, ms, hs) =>
            .ok (text :: ps,
                 (MetaDict.update
                   [("paragraph_id", .str hit.hitId), ("document_id", .str did),
                    ("document_name", .str dname), ("score", .num (hit.score - 1))]
                   s3) :: ms,
                 { hit with source := s3 } :: hs)

/-! ### Query building (`prepare_query`, lines 139-166) -/

/-- The single `multi_match` clause placed in the `should` list. -/
structure MultiMatch where
  query : String
  mtype : String
  fields : List String
deriving DecidableEq, Repr

/-- A clause of the `bool.filter` list. -/
inductive FilterClause where
  | termsId (ids : List String)
deriving DecidableEq, Repr

/-- The `bool` query: a `should` list, and a `filter` key that is absent
(`none`) unless the code assigned one. -/
structure BoolQuery where
  should : List MultiMatch
  filter : Option (List FilterClause)
deriving DecidableEq, Repr

/-- The query clause, possibly wrapped in a `nested` envelope with
`inner_hits` requested. -/
inductive QueryClause where
  | boolQ (b : BoolQuery)
  | nestedQ (path : String) (innerHitsRequested : Bool) (b : BoolQuery)
deriving DecidableEq, Repr

/-- The top-level request body: `size`, `query`, and an optional `_source`
excludes list. -/
structure QueryBody where
  size : ℕ
  query : QueryClause
  sourceExcludes : Option (List String)
deriving DecidableEq, Repr

/-- Python truthiness of an optional list (`if candidate_doc_ids:` and
`if self.excluded_meta_data:`): `None` and the empty list are falsy. -/
def optListTruthy (o : Option (List String)) : Bool :=
  match o with
  | none => false
  | some l => !l.isEmpty

/-- `prepare_query(search_fields, top_k, candidate_doc_ids)`
(lines 139-166). The `filter` key is only assigned when
`candidate_doc_ids` is truthy; the `nested` wrapper is applied when the
store is nested; `_source.excludes` is only set when `excluded_meta_data`
is truthy. -/
def prepare_query (cfg : StoreConfig) (queryText : String) (top_k : ℕ)
    (candidate_doc_ids : Option (List String)) : QueryBody :=
  let bq : BoolQuery :=
    { should := [{ query := queryText, mtype := "most_fields", fields := cfg.search_fields }],
      filter := if optListTruthy candidate_doc_ids
                then some [FilterClause.termsId (candidate_doc_ids.getD [])]
                else none }
  let qc : QueryClause :=
    if cfg.is_nested then QueryClause.nestedQ cfg.nested_path true bq
    else QueryClause.boolQ bq
  { size := top_k,
    query := qc,
    sourceExcludes := if optListTruthy cfg.excluded_meta_data
                      then some (cfg.excluded_meta_data.getD []) else none }

/-- The `bool` query inside a body, under the `nested` wrapper when there is
one. -/
def QueryBody.boolPart (b : QueryBody) : BoolQuery :=
  match b.query with
  | .boolQ bq => bq
  | .nestedQ _ _ bq => bq

/-! ### Field mapping resolution (`__init__`, lines 62-74) -/

/-- The mapping-derived part of the store configuration. -/
structure FieldMapping where
  is_nested : Bool
  nested_path : String
  text_field : String
  name_field : String
  doc_id_field : String
deriving DecidableEq, Repr

/-- Python `s.split(<dot>)` over the character list: cut at every dot,
keeping empty segments, never returning an empty list. -/
def splitDotChars : List Char → List Char → List (List Char)
  | [], acc => [acc.reverse]
  | c :: rest, acc =>
    if c = '.' then acc.reverse :: splitDotChars rest []
    else splitDotChars rest (c :: acc)

/-- Python `field.split(<dot>)` on a field path string. -/
def pySplitDot (s : String) : List String :=
  (splitDotChars s.toList []).map fun cs => String.mk cs

/-- Lines 62-74 of `__init__`: split the three field paths on the dot, raise
when some path has more than one segment but the three do not share the
same leading segments, and otherwise keep only the leaf segments, with the
shared leading segments joined back as the nested path. -/
def resolveFieldMapping (text_field name_field doc_id_field : String) :
    Except String FieldMapping :=
  let tp := pySplitDot text_field
  let np := pySplitDot name_field
  let dp := pySplitDot doc_id_field
  if (tp.length > 1 ∨ dp.length > 1 ∨ np.length > 1) ∧
      ¬(tp.dropLast = dp.dropLast ∧ dp.dropLast = np.dropLast) then
    .error "text_field, doc_id_field, name_field should have the same nested path"
  else
    .ok { is_nested := decide (tp.length > 1),
          nested_path := if tp.length > 1 then String.intercalate "." tp.dropLast else "",
          text_field := tp.getLastD "",
          name_field := np.getLastD "",
          doc_id_field := dp.getLastD "" }

/-! ### `get_document_by_id` (lines 78-89)

The source runs the search, takes the hit list, and when it is non-empty
builds a record via `result[self.doc_id_field]` — but `result` is the
Python *list* of hits, and indexing a list with a string key raises
`TypeError` unconditionally. -/

/-- The record `get_document_by_id` tries to build; each value would be
whatever `result[<field name>]` returned. -/
structure LookupDoc where
  id : Hit
  name : Hit
  text : Hit
deriving DecidableEq, Repr

/-- Python list indexing with a string key (`result[self.doc_id_field]`
where `result` is a list): always a `TypeError`. -/
def pyListGetStr (_ : List Hit) (_ : String) : Except String Hit :=
  .error "TypeError: list indices must be integers or slices, not str"

/-- `get_document_by_id(id)` (lines 78-89), parametrised by the hit list
the backend search returned: `None` when the list is empty, otherwise the
record built from `result[field]` string-indexing of the hit list. -/
def get_document_by_id (cfg : StoreConfig) (result : List Hit) :
    Except String (Option LookupDoc) :=
  if result.isEmpty then .ok none
  else
    match pyListGetStr result cfg.doc_id_field with
    | .error e => .error e
    | .ok vid =>
      match pyListGetStr result cfg.name_field with
      | .error e => .error e
      | .ok vname =>
        match pyListGetStr result cfg.text_field with
        | .error e => .error e
        | .ok vtext => .ok (some { id := vid, name := vname, text := vtext })

/-! ### `write_documents` (lines 114-119)

Each document is indexed inside its own `try`/`except`: a failure is
logged and the loop continues. The embedding is parametrised by the
backend outcome per document and returns the list of attempted documents
in order together with the error log; totality of the function is the
never-raises guarantee. -/

/-- A document to write: an opaque field mapping. -/
abbrev Doc := Source

/-- `write_documents(documents)` (lines 114-119), parametrised by the
outcome of `self.client.index` on each document. Returns (documents
attempted in order, error log entries in order). -/
def write_documents (indexOutcome : Doc → Except String Unit) :
    List Doc → List Doc × List String
  | [] => ([], [])
  | d :: rest =>
    let tail := write_documents indexOutcome rest
    match indexOutcome d with
    | .ok _ => (d :: tail.1, tail.2)
    | .error e => (d :: tail.1, ("Failed to index doc (" ++ e ++ ")") :: tail.2)

/-! ### `get_document_ids_by_tags` (lines 104-112) -/

/-- One `terms` clause of the tag query: field name and allowed values. -/
structure TermsClause where
  field : String
  values : List String
deriving DecidableEq, Repr

/-- The `bool.must` term queries built from the tag mapping (line 105). -/
def tagTermQueries (tags : List (String × List String)) : List TermsClause :=
  tags.map fun kv => { field := kv.1, values := kv.2 }

/-- A document stored in the index, for the backend model: its id and its
source fields. -/
structure IndexedDoc where
  docId : String
  fields : Source
deriving DecidableEq, Repr

/-- Whether a stored document satisfies one `terms` clause: its value for
the field is among the allowed values. -/
def matchesTerms (d : IndexedDoc) (c : TermsClause) : Bool :=
  match d.fields.lookup c.field with
  | some v => c.values.contains v
  | none => false

/-- Modelled from the spec: the external search engine collaborator
(spec section 6, `search(index, queryBody) -> hits`), which is out of the
repository. A `bool` query with a `must` list matches the documents that
satisfy every clause — so an empty `must` list matches every document —
and at most `size` hits are returned. -/
def searchBoolMust (docs : List IndexedDoc) (must : List TermsClause) (size : ℕ) :
    List IndexedDoc :=
  (docs.filter fun d => must.all fun c => matchesTerms d c).take size

/-- `get_document_ids_by_tags(tags)` (lines 104-112): run the
`bool`/`must` query with `size=10000` and collect `hit["_id"]` of every
returned hit. -/
def get_document_ids_by_tags (docs : List IndexedDoc)
    (tags : List (String × List String)) : List String :=
  (searchBoolMust docs (tagTermQueries tags) 10000).map IndexedDoc.docId

/-! ### `query_by_embedding` request body (lines 226-256)

The scoring script source on line 237 is the fixed string
`cosineSimilarity(params.query_vector,doc[<sq>question_emb<sq>]) + 1.0`
(with `<sq>` a single-quote character): the configured `embedding_field`
is not interpolated into it. -/

/-- A single-quote character, as a string. -/
def sq : String := String.singleton (Char.ofNat 39)

/-- The base query the scoring script is applied to: `match_all`, or, when
candidate ids were given, a `bool` with a `match_all` should and a `terms`
filter on `_id`. -/
inductive EmbBaseQuery where
  | matchAll
  | filteredMatchAll (ids : List String)
deriving DecidableEq, Repr

/-- The request body built by `query_by_embedding`. -/
structure EmbBody where
  size : ℕ
  baseQuery : EmbBaseQuery
  scriptSource : String
  queryVector : List ℚ
  sourceExcludes : Option (List String)
deriving DecidableEq, Repr

/-- Python truthiness of the optional embedding field
(`if not self.embedding_field:`): `None` and the empty string are falsy. -/
def embFieldTruthy (o : Option String) : Bool :=
  match o with
  | none => false
  | some s => !s.isEmpty

/-- Lines 226-254 of `query_by_embedding`: raise when no embedding field is
configured, otherwise build the script-score body. The script source is
the hard-coded line 237 string, whatever `embedding_field` holds. -/
def query_by_embedding_body (cfg : StoreConfig) (query_emb : List ℚ) (top_k : ℕ)
    (candidate_doc_ids : Option (List String)) : Except String EmbBody :=
  if !embFieldTruthy cfg.embedding_field then
    .error "Please specify arg embedding_field in ElasticsearchDocumentStore()"
  else
    .ok { size := top_k,
          baseQuery := if optListTruthy candidate_doc_ids
                       then EmbBaseQuery.filteredMatchAll (candidate_doc_ids.getD [])
                       else EmbBaseQuery.matchAll,
          scriptSource := "cosineSimilarity(params.query_vector,doc[" ++ sq
                            ++ "question_emb" ++ sq ++ "]) + 1.0",
          queryVector := query_emb,
          sourceExcludes := if optListTruthy cfg.excluded_meta_data
                            then some (cfg.excluded_meta_data.getD []) else none }

/-! ### Concrete fixtures used in closed evaluations -/

/-- A flat-mode store configuration with the default field names. -/
def flatCfg : StoreConfig :=
  { search_fields := ["text"], text_field := "text", name_field := "name",
    doc_id_field := "document_id", is_nested := false, nested_path := "",
    embedding_field := none, excluded_meta_data := none }

/-- A nested-mode store configuration. -/
def nestedCfg : StoreConfig :=
  { flatCfg with is_nested := true, nested_path := "paragraphs" }

/-- An inner hit holding one paragraph with the given score. -/
def innerPara (s : ℚ) (t : String) : InnerHit :=
  { score := s, source := [("text", t), ("document_id", "d"), ("name", "n")] }

/-- Outer hit H1 with inner-hit scores 0.2 and 0.9. -/
def outerHit1 : Hit :=
  { hitId := "H1", score := 1, source := [],
    innerHits := [innerPara (mkRat 2 10) "p02", innerPara (mkRat 9 10) "p09"] }

/-- Outer hit H2 with inner-hit score 0.5. -/
def outerHit2 : Hit :=
  { hitId := "H2", score := 1, source := [], innerHits := [innerPara (mkRat 5 10) "p05"] }

/-- The projected metadata of the 0.9-scored inner hit of H1. -/
def meta09 : Meta :=
  { paragraph_id := "H1", document_id := "d", document_name := "n",
    score := mkRat 9 10,
    custom_meta := [("text", "p09"), ("document_id", "d"), ("name", "n")] }

/-- The projected metadata of the 0.5-scored inner hit of H2. -/
def meta05 : Meta :=
  { paragraph_id := "H2", document_id := "d", document_name := "n",
    score := mkRat 5 10,
    custom_meta := [("text", "p05"), ("document_id", "d"), ("name", "n")] }

/-- A flat hit with text, document id, name and one extra source field. -/
def flatHit : Hit :=
  { hitId := "h7", score := mkRat 3 2,
    source := [("text", "t"), ("document_id", "d"), ("name", "n"), ("extra", "e")],
    innerHits := [] }

/-- `flatHit` after `extract_paragraphs` popped the text field. -/
def flatHitAfter : Hit :=
  { flatHit with source := [("document_id", "d"), ("name", "n"), ("extra", "e")] }

/-- The metadata `extract_paragraphs` builds for `flatHit`. -/
def flatHitMeta : Meta :=
  { paragraph_id := "h7", document_id := "d", document_name := "n",
    score := mkRat 3 2,
    custom_meta := [("document_id", "d"), ("name", "n"), ("extra", "e")] }

/-- `flatHit` after the embedding projection popped text, id and name. -/
def embHitAfter : Hit := { flatHit with source := [("extra", "e")] }

/-- The metadata dict the embedding projection builds for `flatHit`:
backend score 1.5 reported as 1.5 minus 1, and the residual field `extra`
merged in (it collides with no promoted key, so it is appended). -/
def embHitMeta : MetaDict :=
  [("paragraph_id", .str "h7"), ("document_id", .str "d"),
   ("document_name", .str "n"), ("score", .num (mkRat 3 2 - 1)),
   ("extra", .str "e")]

/-- A hit like `flatHit` whose residual source keeps a field literally
named `score`. -/
def scoreFieldHit : Hit :=
  { hitId := "h8", score := mkRat 3 2,
    source := [("text", "t"), ("document_id", "d"), ("name", "n"), ("score", "boom")],
    innerHits := [] }

/-- `scoreFieldHit` after the embedding projection popped text, id and
name: the stored `score` field remains. -/
def scoreFieldHitAfter : Hit := { scoreFieldHit with source := [("score", "boom")] }

/-- The metadata dict the embedding projection builds for `scoreFieldHit`:
the verbatim merge overwrites the promoted `score` entry (backend score
minus 1) with the residual source value `boom`. -/
def scoreFieldMeta : MetaDict :=
  [("paragraph_id", .str "h8"), ("document_id", .str "d"),
   ("document_name", .str "n"), ("score", .str "boom")]

/-- A store configuration with embedding field named `embedding`. -/
def embCfgA : StoreConfig := { flatCfg with embedding_field := some "embedding" }

/-- A store configuration with embedding field named `my_vectors`. -/
def embCfgB : StoreConfig := { flatCfg with embedding_field := some "my_vectors" }

end Haystack

namespace Haystack

/-! ### Helper lemmas -/

/-- Looking up a key in a dict it was just removed from finds nothing. -/
theorem lookup_eraseKey (s : Source) (k : String) :
    (Source.eraseKey s k).lookup k = none := by
  induction s with
  | nil => rfl
  | cons kv rest ih =>
    obtain ⟨k1, v1⟩ := kv
    by_cases h : k1 = k
    · simpa [Source.eraseKey, List.filter_cons, h] using ih
    · rw [Source.eraseKey, List.filter_cons]
      have hp : (decide ¬((k1, v1).1 = k)) = true := by simp [h]
      rw [hp]
      simp only [if_true]
      rw [List.lookup]
      have hb : (k == k1) = false := by simp [Ne.symm h]
      rw [hb]
      exact ih

/-- Popping a key that was just removed raises a `KeyError`. -/
theorem pop_eraseKey (s : Source) (k : String) :
    Source.pop (Source.eraseKey s k) k = .error ("KeyError: " ++ k) := by
  simp only [Source.pop, lookup_eraseKey]

/-- A successful pop returns the dict with the key removed. -/
theorem pop_ok_snd {s : Source} {k text src : _} (h : Source.pop s k = .ok (text, src)) :
    src = Source.eraseKey s k := by
  simp only [Source.pop] at h
  split at h
  · simp only [Except.ok.injEq, Prod.mk.injEq] at h
    exact h.2.symm
  · exact Except.noConfusion h

/-- Overwriting the entry of one key in place does not change lookups of
any other key. -/
theorem lookup_map_overwrite (k1 k : String) (v : PyVal) (hne : k1 ≠ k) :
    ∀ d : MetaDict,
      (d.map fun kv => if kv.1 = k1 then (k1, v) else kv).lookup k = d.lookup k := by
  intro d
  induction d with
  | nil => rfl
  | cons kv rest ih =>
    obtain ⟨k2, v2⟩ := kv
    simp only [List.map_cons]
    by_cases h2 : k2 = k1
    · rw [if_pos h2]
      rw [List.lookup, List.lookup]
      have hbk1 : (k == k1) = false := by simp [Ne.symm hne]
      have hbk2 : (k == k2) = false := by rw [h2]; simp [Ne.symm hne]
      rw [hbk1, hbk2]
      exact ih
    · rw [if_neg h2]
      rw [List.lookup, List.lookup]
      cases hb : (k == k2) with
      | true => rfl
      | false => exact ih

/-- Appending a new entry for one key does not change lookups of any other
key. -/
theorem lookup_append_singleton_ne (k1 k : String) (v : PyVal) (hne : k1 ≠ k) :
    ∀ d : MetaDict, (d ++ [(k1, v)]).lookup k = d.lookup k := by
  intro d
  induction d with
  | nil =>
    simp only [List.nil_append]
    have hb : (k == k1) = false := by simp [Ne.symm hne]
    simp [List.lookup, hb]
  | cons kv rest ih =>
    obtain ⟨k2, v2⟩ := kv
    rw [List.cons_append, List.lookup, List.lookup]
    cases hb : (k == k2) with
    | true => rfl
    | false => exact ih

/-- Setting one key of a metadata dict does not change lookups of any
other key. -/
theorem lookup_setKey_ne (d : MetaDict) (k1 k : String) (v : PyVal) (hne : k1 ≠ k) :
    (MetaDict.setKey d k1 v).lookup k = d.lookup k := by
  rw [MetaDict.setKey]
  by_cases hany : (d.any fun kv => kv.1 = k1) = true
  · rw [if_pos hany]
    exact lookup_map_overwrite k1 k v hne d
  · rw [if_neg hany]
    exact lookup_append_singleton_ne k1 k v hne d

/-- A dict merge leaves the entry of a key untouched when the merged-in
mapping does not hold that key. -/
theorem lookup_update_none :
    ∀ (other : Source) (d : MetaDict) (k : String), other.lookup k = none →
      (MetaDict.update d other).lookup k = d.lookup k := by
  intro other
  induction other with
  | nil => intro d k _; rfl
  | cons kv rest ih =>
    intro d k h
    obtain ⟨k1, v1⟩ := kv
    rw [List.lookup] at h
    cases hb : (k == k1) with
    | true => rw [hb] at h; exact Option.noConfusion h
    | false =>
      rw [hb] at h
      have hne : k1 ≠ k := by
        intro hc
        subst hc
        simp at hb
      show (MetaDict.update (MetaDict.setKey d k1 (.str v1)) rest).lookup k =
        d.lookup k
      rw [ih (MetaDict.setKey d k1 (.str v1)) k h]
      exact lookup_setKey_ne d k1 k (.str v1) hne

/-- Stable descending insertion keeps the list sorted by score. -/
theorem chain'_insertPairDesc (x : String × Meta) :
    ∀ l : List (String × Meta),
      List.Chain' (fun a b => b.2.score ≤ a.2.score) l →
      List.Chain' (fun a b => b.2.score ≤ a.2.score) (insertPairDesc x l) := by
  intro l
  induction l with
  | nil => intro _; simp [insertPairDesc]
  | cons y ys ih =>
    intro hl
    rw [insertPairDesc]
    by_cases hc : y.2.score ≤ x.2.score
    · rw [if_pos hc]
      exact List.Chain'.cons hc hl
    · rw [if_neg hc]
      have hyx : x.2.score ≤ y.2.score := le_of_lt (lt_of_not_le hc)
      cases ys with
      | nil => simp [insertPairDesc, hyx]
      | cons z zs =>
        rw [List.chain'_cons] at hl
        obtain ⟨hyz, hzs⟩ := hl
        have hrec := ih hzs
        rw [insertPairDesc] at hrec ⊢
        by_cases hc2 : z.2.score ≤ x.2.score
        · rw [if_pos hc2] at hrec ⊢
          exact List.Chain'.cons hyx hrec
        · rw [if_neg hc2] at hrec ⊢
          exact List.Chain'.cons hyz hrec

/-- The stable sort used by the nested projection yields a list sorted by
score descending. -/
theorem chain'_sortPairsDesc :
    ∀ l : List (String × Meta),
      List.Chain' (fun a b => b.2.score ≤ a.2.score) (sortPairsDesc l) := by
  intro l
  induction l with
  | nil => simp [sortPairsDesc]
  | cons x xs ih => rw [sortPairsDesc]; exact chain'_insertPairDesc x _ ih

/-- Zipping the two projections of a pair list recovers the pair list. -/
theorem zip_proj_eq (l : List (String × Meta)) :
    (l.map Prod.fst).zip (l.map Prod.snd) = l := by
  have h := List.zip_unzip l
  rwa [List.unzip_eq_map l] at h

/-- A list of at most one element has an empty `dropLast`. -/
theorem dropLast_eq_nil_of_le_one {α : Type} (l : List α) (h : l.length ≤ 1) :
    l.dropLast = [] := by
  cases l with
  | nil => rfl
  | cons a t =>
    cases t with
    | nil => rfl
    | cons b t2 => simp at h

/-- A list with an empty `dropLast` has at most one element. -/
theorem length_le_one_of_dropLast_eq_nil {α : Type} (l : List α)
    (h : l.dropLast = []) : l.length ≤ 1 := by
  have hl := List.length_dropLast l
  rw [h] at hl
  simp at hl
  omega

/-! ### Claim theorems -/

/-- Claim C1. The claim states that the nested projection of a zero-hit
backend result returns two empty sequences without an unpacking error. In
the code the empty case is not special-cased: `zip(*zipped)` with `zipped`
empty raises a `ValueError` instead. This theorem evaluates the embedded
code at the failing input: for every `top_k`, the nested projection of the
empty hit list is the `ValueError`, not `.ok ([], [])`. -/
theorem c1_nested_projection_zero_hits_raises :
    ∀ top_k : ℕ, extract_paragraphs_nested nestedCfg [] top_k =
      .error "ValueError: not enough values to unpack (expected 2, got 0)" := by
  intro k
  cases k <;> rfl

/-- Claim C2. The claim states the scoring script of the embedding query
references the configured `embedding_field`. In the code the script source
is a fixed literal naming the field `question_emb`: two stores configured
with embedding fields named `embedding` and `my_vectors` build the very
same script, so the script cannot reference the configured name. -/
theorem c2_script_ignores_embedding_field :
    (query_by_embedding_body embCfgA [1] 3 none).map EmbBody.scriptSource =
      .ok ("cosineSimilarity(params.query_vector,doc[" ++ sq ++ "question_emb" ++ sq
            ++ "]) + 1.0")
  ∧ (query_by_embedding_body embCfgB [1] 3 none).map EmbBody.scriptSource =
      (query_by_embedding_body embCfgA [1] 3 none).map EmbBody.scriptSource :=
  ⟨by decide, by decide⟩

/-- Claim C3. The claim states `get_document_by_id` returns `None` on an
empty hit list and a document record on a non-empty one, never raising. The
empty half holds, but on a non-empty hit list the code evaluates
`result[self.doc_id_field]` with `result` the Python list of hits, and
indexing a list with a string key raises `TypeError`. -/
theorem c3_get_document_by_id_raises_when_found :
    get_document_by_id flatCfg [] = .ok none
  ∧ get_document_by_id flatCfg [flatHit] =
      .error "TypeError: list indices must be integers or slices, not str" :=
  ⟨rfl, rfl⟩

/-- Claim C4, counterexample: the claim as stated fails on the code. The
source sets the `score` key to backend score minus 1 and THEN runs
`cur_meta.update(hit["_source"])`, so a hit whose residual source keeps a
field literally named `score` (backend score 1.5, stored field value
`boom`) has its reported score overwritten by the merge: the projected
metadata reports `boom`, not 0.5. -/
theorem c4_score_overwritten_by_merge :
    embExtract flatCfg [scoreFieldHit] =
      .ok (["t"], [scoreFieldMeta], [scoreFieldHitAfter])
  ∧ scoreFieldMeta.lookup "score" = some (.str "boom")
  ∧ PyVal.str "boom" ≠ PyVal.num (scoreFieldHit.score - 1) :=
  ⟨rfl, rfl, fun hcon => PyVal.noConfusion hcon⟩

/-- Claim C4, amended: for every hit the embedding projection accepts whose
residual source — what remains after the text, document-id and name fields
are popped — holds no field named `score`, the `score` entry of the
projected metadata dict is exactly the backend score of the hit minus 1,
reversing the constant offset the scoring script adds. (When a residual
field named `score` remains, the verbatim metadata merge overwrites the
reported score with that field's value, as the counterexample shows.) -/
theorem c4_embedding_score_offset :
    ∀ (cfg : StoreConfig) (hits : List Hit) (ps : List String) (ms : List MetaDict)
      (hs : List Hit),
      embExtract cfg hits = .ok (ps, ms, hs) →
      List.Forall₂ (fun (h : Hit) (m : MetaDict) =>
        (Source.eraseKey (Source.eraseKey (Source.eraseKey h.source cfg.text_field)
            cfg.doc_id_field) cfg.name_field).lookup "score" = none →
        m.lookup "score" = some (.num (h.score - 1))) hits ms := by
  intro cfg hits
  induction hits with
  | nil =>
    intro ps ms hs h
    simp only [embExtract, Except.ok.injEq, Prod.mk.injEq] at h
    obtain ⟨-, h2, -⟩ := h
    subst h2
    exact List.Forall₂.nil
  | cons hit rest ih =>
    intro ps ms hs h
    simp only [embExtract] at h
    split at h
    · exact Except.noConfusion h
    · rename_i text s1 hpop1
      split at h
      · exact Except.noConfusion h
      · rename_i did s2 hpop2
        split at h
        · exact Except.noConfusion h
        · rename_i dname s3 hpop3
          split at h
          · exact Except.noConfusion h
          · rename_i hrest
            simp only [Except.ok.injEq, Prod.mk.injEq] at h
            obtain ⟨h1, h2, h3⟩ := h
            subst h1; subst h2; subst h3
            refine .cons ?_ (ih _ _ _ hrest)
            intro hres
            have e1 := pop_ok_snd hpop1
            have e2 := pop_ok_snd hpop2
            have e3 := pop_ok_snd hpop3
            have hs3 : s3.lookup "score" = none := by
              rw [e3, e2, e1]
              exact hres
            rw [lookup_update_none s3 _ "score" hs3]
            rfl

/-- Claim C4, witness: the embedding projection of a hit with backend score
1.5 and no residual `score` field reports score 1.5 minus 1, and the
amended score relation holds on that concrete output. -/
theorem c4_embedding_score_offset_witness :
    embExtract flatCfg [flatHit] = .ok (["t"], [embHitMeta], [embHitAfter])
  ∧ List.Forall₂ (fun (h : Hit) (m : MetaDict) =>
        (Source.eraseKey (Source.eraseKey (Source.eraseKey h.source
            flatCfg.text_field) flatCfg.doc_id_field) flatCfg.name_field).lookup
          "score" = none →
        m.lookup "score" = some (.num (h.score - 1))) [flatHit] [embHitMeta]
  ∧ embHitMeta.lookup "score" = some (.num (flatHit.score - 1)) :=
  ⟨rfl,
   c4_embedding_score_offset flatCfg [flatHit] ["t"] [embHitMeta] [embHitAfter] rfl,
   rfl⟩

/-- Claim C5. Whenever the nested projection succeeds, its output is the
flattened (text, meta) pair list — one pair per inner hit, built by
`flattenNestedPairs` with `paragraph_id` from the outer hit and the other
fields from the inner hit — stably sorted by score descending and truncated
to `top_k`; hence the output is score-sorted and at most `top_k` long. On
the concrete claim example (inner-hit scores 0.2 and 0.9 under H1, 0.5
under H2, `top_k` 2) it returns the 0.9 and 0.5 hits in that order,
discarding 0.2. -/
theorem c5_nested_projection_reranks :
    (∀ (cfg : StoreConfig) (result : List Hit) (top_k : ℕ) (ps : List String)
        (ms : List Meta),
        extract_paragraphs_nested cfg result top_k = .ok (ps, ms) →
        ∃ pairs, flattenNestedPairs cfg result = .ok pairs ∧
          ps.zip ms = (sortPairsDesc pairs).take top_k ∧
          ms.length ≤ top_k ∧
          List.Chain' (fun a b => b.score ≤ a.score) ms)
  ∧ extract_paragraphs_nested nestedCfg [outerHit1, outerHit2] 2 =
      .ok (["p09", "p05"], [meta09, meta05]) := by
  constructor
  · intro cfg result top_k ps ms h
    simp only [extract_paragraphs_nested] at h
    split at h
    · exact Except.noConfusion h
    · rename_i pairs hflat
      split at h
      · exact Except.noConfusion h
      · simp only [Except.ok.injEq, Prod.mk.injEq] at h
        obtain ⟨h1, h2⟩ := h
        subst h1; subst h2
        refine ⟨pairs, hflat, ?_, ?_, ?_⟩
        · rw [zip_proj_eq]
        · rw [List.length_map]
          exact List.length_take_le top_k _
        · exact (List.chain'_map Prod.snd).mpr ((chain'_sortPairsDesc pairs).take top_k)
  · decide

/-- Claim C5, witness: the general re-ranking property instantiated at the
claim example, whose projection was just computed concretely. -/
theorem c5_nested_projection_reranks_witness :
    extract_paragraphs_nested nestedCfg [outerHit1, outerHit2] 2 =
      .ok (["p09", "p05"], [meta09, meta05])
  ∧ ∃ pairs, flattenNestedPairs nestedCfg [outerHit1, outerHit2] = .ok pairs ∧
      (["p09", "p05"] : List String).zip [meta09, meta05] =
        (sortPairsDesc pairs).take 2 ∧
      ([meta09, meta05] : List Meta).length ≤ 2 ∧
      List.Chain' (fun a b => b.score ≤ a.score) [meta09, meta05] :=
  ⟨by decide,
   c5_nested_projection_reranks.1 nestedCfg [outerHit1, outerHit2] 2
     ["p09", "p05"] [meta09, meta05] (by decide)⟩

/-- Claim C6. The text-query body carries no `filter` key at all when the
candidate-id argument is absent or the empty list; with a non-empty
candidate-id list it carries exactly one `terms` filter on `_id` listing
those ids in the `bool.filter` section, while the `should` section holds
only the `multi_match` clause. -/
theorem c6_candidate_filter_placement :
    (∀ (cfg : StoreConfig) (q : String) (k : ℕ),
        (prepare_query cfg q k none).boolPart.filter = none)
  ∧ (∀ (cfg : StoreConfig) (q : String) (k : ℕ),
        (prepare_query cfg q k (some [])).boolPart.filter = none)
  ∧ (∀ (cfg : StoreConfig) (q : String) (k : ℕ) (ids : List String), ids ≠ [] →
        (prepare_query cfg q k (some ids)).boolPart.filter =
            some [FilterClause.termsId ids]
      ∧ (prepare_query cfg q k (some ids)).boolPart.should =
            [{ query := q, mtype := "most_fields", fields := cfg.search_fields }]) := by
  refine ⟨?_, ?_, ?_⟩
  · intro cfg q k
    cases hn : cfg.is_nested <;>
      simp [prepare_query, QueryBody.boolPart, optListTruthy, hn]
  · intro cfg q k
    cases hn : cfg.is_nested <;>
      simp [prepare_query, QueryBody.boolPart, optListTruthy, hn]
  · intro cfg q k ids hne
    cases ids with
    | nil => exact absurd rfl hne
    | cons a t =>
      cases hn : cfg.is_nested <;>
        simp [prepare_query, QueryBody.boolPart, optListTruthy, hn]

/-- Claim C6, witness: the filter and should sections of the body built
with candidate ids a and b, with the theorem applied at that input. -/
theorem c6_candidate_filter_placement_witness :
    (["a", "b"] : List String) ≠ []
  ∧ ((prepare_query flatCfg "quest" 10 (some ["a", "b"])).boolPart.filter =
        some [FilterClause.termsId ["a", "b"]]
    ∧ (prepare_query flatCfg "quest" 10 (some ["a", "b"])).boolPart.should =
        [{ query := "quest", mtype := "most_fields", fields := flatCfg.search_fields }]) :=
  ⟨by decide,
   c6_candidate_filter_placement.2.2 flatCfg "quest" 10 ["a", "b"] (by decide)⟩

/-- Claim C7. Field-path resolution at construction: when none of the three
paths contains a dot, the mapping is non-nested with an empty nested path;
when some path has more than one segment and all three share the same
leading segments, construction succeeds with the shared leading segments
(joined by dots) as the nested path and only the leaf segments as the
working field names; and when some path has more than one segment but the
leading segments do not all agree, construction fails with the
configuration error. -/
theorem c7_field_mapping_nesting :
    (∀ t n d : String,
        (pySplitDot t).length = 1 → (pySplitDot n).length = 1 →
        (pySplitDot d).length = 1 →
        ∃ fm, resolveFieldMapping t n d = .ok fm ∧
          fm.is_nested = false ∧ fm.nested_path = "")
  ∧ (∀ t n d : String,
        ((pySplitDot t).length > 1 ∨ (pySplitDot n).length > 1 ∨
          (pySplitDot d).length > 1) →
        (pySplitDot t).dropLast = (pySplitDot d).dropLast →
        (pySplitDot d).dropLast = (pySplitDot n).dropLast →
        ∃ fm, resolveFieldMapping t n d = .ok fm ∧
          fm.is_nested = true ∧
          fm.nested_path = String.intercalate "." (pySplitDot t).dropLast ∧
          fm.text_field = (pySplitDot t).getLastD "" ∧
          fm.name_field = (pySplitDot n).getLastD "" ∧
          fm.doc_id_field = (pySplitDot d).getLastD "")
  ∧ (∀ t n d : String,
        ((pySplitDot t).length > 1 ∨ (pySplitDot n).length > 1 ∨
          (pySplitDot d).length > 1) →
        ¬((pySplitDot t).dropLast = (pySplitDot d).dropLast ∧
          (pySplitDot d).dropLast = (pySplitDot n).dropLast) →
        resolveFieldMapping t n d =
          .error "text_field, doc_id_field, name_field should have the same nested path") := by
  refine ⟨?_, ?_, ?_⟩
  · intro t n d ht hn hd
    have hcond : ¬(((pySplitDot t).length > 1 ∨ (pySplitDot d).length > 1 ∨
        (pySplitDot n).length > 1) ∧
        ¬((pySplitDot t).dropLast = (pySplitDot d).dropLast ∧
          (pySplitDot d).dropLast = (pySplitDot n).dropLast)) := by
      intro hc
      rcases hc.1 with h | h | h <;> omega
    rw [resolveFieldMapping, if_neg hcond]
    refine ⟨_, rfl, ?_, ?_⟩
    · simp [ht]
    · simp [ht]
  · intro t n d hor htd hdn
    have htp : (pySplitDot t).length > 1 := by
      by_contra hle
      push_neg at hle
      have h1 : (pySplitDot t).dropLast = [] :=
        dropLast_eq_nil_of_le_one _ (by omega)
      have h2 : (pySplitDot d).dropLast = [] := by rw [← htd]; exact h1
      have h3 : (pySplitDot n).dropLast = [] := by rw [← hdn]; exact h2
      have hd1 := length_le_one_of_dropLast_eq_nil _ h2
      have hn1 := length_le_one_of_dropLast_eq_nil _ h3
      have ht1 := length_le_one_of_dropLast_eq_nil _ h1
      rcases hor with h | h | h <;> omega
    have hcond : ¬(((pySplitDot t).length > 1 ∨ (pySplitDot d).length > 1 ∨
        (pySplitDot n).length > 1) ∧
        ¬((pySplitDot t).dropLast = (pySplitDot d).dropLast ∧
          (pySplitDot d).dropLast = (pySplitDot n).dropLast)) := by
      intro hc
      exact hc.2 ⟨htd, hdn⟩
    rw [resolveFieldMapping, if_neg hcond]
    refine ⟨_, rfl, ?_, ?_, rfl, rfl, rfl⟩
    · simp [htp]
    · simp [htp]
  · intro t n d hor hne
    have hor2 : ((pySplitDot t).length > 1 ∨ (pySplitDot d).length > 1 ∨
        (pySplitDot n).length > 1) := by tauto
    rw [resolveFieldMapping, if_pos ⟨hor2, hne⟩]

/-- Claim C7, witness: the three branches applied at concrete field paths
(a flat triple, a consistently nested triple, and a mismatched triple). -/
theorem c7_field_mapping_nesting_witness :
    ((pySplitDot "text").length = 1 ∧ (pySplitDot "name").length = 1 ∧
      (pySplitDot "document_id").length = 1 ∧
      ∃ fm, resolveFieldMapping "text" "name" "document_id" = .ok fm ∧
        fm.is_nested = false ∧ fm.nested_path = "")
  ∧ (((pySplitDot "a.text").length > 1 ∨ (pySplitDot "a.name").length > 1 ∨
        (pySplitDot "a.id").length > 1) ∧
      (pySplitDot "a.text").dropLast = (pySplitDot "a.id").dropLast ∧
      (pySplitDot "a.id").dropLast = (pySplitDot "a.name").dropLast ∧
      ∃ fm, resolveFieldMapping "a.text" "a.name" "a.id" = .ok fm ∧
        fm.is_nested = true ∧
        fm.nested_path = String.intercalate "." (pySplitDot "a.text").dropLast ∧
        fm.text_field = (pySplitDot "a.text").getLastD "" ∧
        fm.name_field = (pySplitDot "a.name").getLastD "" ∧
        fm.doc_id_field = (pySplitDot "a.id").getLastD "")
  ∧ (((pySplitDot "a.text").length > 1 ∨ (pySplitDot "b.name").length > 1 ∨
        (pySplitDot "a.id").length > 1) ∧
      ¬((pySplitDot "a.text").dropLast = (pySplitDot "a.id").dropLast ∧
        (pySplitDot "a.id").dropLast = (pySplitDot "b.name").dropLast) ∧
      resolveFieldMapping "a.text" "b.name" "a.id" =
        .error "text_field, doc_id_field, name_field should have the same nested path") :=
  ⟨⟨by decide, by decide, by decide,
    c7_field_mapping_nesting.1 "text" "name" "document_id"
      (by decide) (by decide) (by decide)⟩,
   ⟨by decide, by decide, by decide,
    c7_field_mapping_nesting.2.1 "a.text" "a.name" "a.id"
      (by decide) (by decide) (by decide)⟩,
   ⟨by decide, by decide,
    c7_field_mapping_nesting.2.2 "a.text" "b.name" "a.id"
      (by decide) (by decide)⟩⟩

/-- Claim C8. `write_documents` attempts every document in order whatever
the per-document backend outcomes are — so a failure on one document never
prevents the attempt on the next — and it completes totally, producing one
log entry per failing document. -/
theorem c8_write_documents_attempts_all (indexOutcome : Doc → Except String Unit)
    (docs : List Doc) :
    (write_documents indexOutcome docs).1 = docs
  ∧ (write_documents indexOutcome docs).2.length =
      (docs.filter fun d => !(indexOutcome d).isOk).length := by
  induction docs with
  | nil => exact ⟨rfl, rfl⟩
  | cons d rest ih =>
    rw [write_documents]
    cases hf : indexOutcome d with
    | ok u =>
      cases u
      exact ⟨by rw [ih.1],
             by simp [List.filter_cons, hf, Except.isOk, Except.toBool, ih.2]⟩
    | error e =>
      exact ⟨by rw [ih.1],
             by simp [List.filter_cons, hf, Except.isOk, Except.toBool, ih.2]⟩

/-- Helper for C9: the flat projection returns each hit with its text field
removed from the source, and each custom-metadata mapping is exactly the
mutated source mapping of the corresponding returned hit. -/
theorem extract_paragraphs_mutation_aux :
    ∀ (cfg : StoreConfig) (hits : List Hit) (ps : List String) (ms : List Meta)
      (hs : List Hit),
      extract_paragraphs cfg hits = .ok (ps, ms, hs) →
      List.Forall₂ (fun (h : Hit) (h2 : Hit) =>
          h2.source = Source.eraseKey h.source cfg.text_field) hits hs
    ∧ List.Forall₂ (fun (m : Meta) (h2 : Hit) => m.custom_meta = h2.source) ms hs := by
  intro cfg hits
  induction hits with
  | nil =>
    intro ps ms hs h
    simp only [extract_paragraphs, Except.ok.injEq, Prod.mk.injEq] at h
    obtain ⟨-, h2, h3⟩ := h
    subst h2; subst h3
    exact ⟨.nil, .nil⟩
  | cons hit rest ih =>
    intro ps ms hs h
    simp only [extract_paragraphs] at h
    split at h
    · exact Except.noConfusion h
    · rename_i text src hpop
      split at h
      · exact Except.noConfusion h
      · split at h
        · exact Except.noConfusion h
        · split at h
          · exact Except.noConfusion h
          · rename_i hrest
            simp only [Except.ok.injEq, Prod.mk.injEq] at h
            obtain ⟨h1, h2, h3⟩ := h
            subst h1; subst h2; subst h3
            obtain ⟨f1, f2⟩ := ih _ _ _ hrest
            exact ⟨.cons (pop_ok_snd hpop) f1, .cons rfl f2⟩

/-- Helper for C9: the flat projection of a hit list whose head lacks the
text field raises a `KeyError` on the first pop. -/
theorem extract_paragraphs_keyError_head (cfg : StoreConfig) (h2 : Hit)
    (hs2 : List Hit) (hsrc : h2.source.lookup cfg.text_field = none) :
    extract_paragraphs cfg (h2 :: hs2) = .error ("KeyError: " ++ cfg.text_field) := by
  simp only [extract_paragraphs, Source.pop, hsrc]

/-- Claim C9. Projection mutates the hit structures it walks: after the
flat projection, every returned hit source equals the input source with the
text field removed, the custom metadata handed to the caller is exactly
that mutated source mapping, and — when there was at least one hit —
re-projecting the already-projected hits does not reproduce the result but
raises (the text field is gone, so the pop fails). The embedding projection
additionally removes the document id and name fields from each source. -/
theorem c9_projection_mutates_sources :
    (∀ (cfg : StoreConfig) (hits : List Hit) (ps : List String) (ms : List Meta)
        (hs : List Hit),
        extract_paragraphs cfg hits = .ok (ps, ms, hs) →
        List.Forall₂ (fun (h : Hit) (h2 : Hit) =>
            h2.source = Source.eraseKey h.source cfg.text_field) hits hs
      ∧ List.Forall₂ (fun (m : Meta) (h2 : Hit) => m.custom_meta = h2.source) ms hs
      ∧ (hits ≠ [] → ∃ e, extract_paragraphs cfg hs = .error e))
  ∧ (∀ (cfg : StoreConfig) (hits : List Hit) (ps : List String) (ms : List MetaDict)
        (hs : List Hit),
        embExtract cfg hits = .ok (ps, ms, hs) →
        List.Forall₂ (fun (h : Hit) (h2 : Hit) =>
            h2.source = Source.eraseKey (Source.eraseKey (Source.eraseKey h.source
              cfg.text_field) cfg.doc_id_field) cfg.name_field) hits hs) := by
  constructor
  · intro cfg hits ps ms hs h
    obtain ⟨f1, f2⟩ := extract_paragraphs_mutation_aux cfg hits ps ms hs h
    refine ⟨f1, f2, ?_⟩
    intro hne
    cases hits with
    | nil => exact absurd rfl hne
    | cons hit rest =>
      cases hs with
      | nil => cases f1
      | cons h2 hs2 =>
        rw [List.forall₂_cons] at f1
        have hlook : h2.source.lookup cfg.text_field = none := by
          rw [f1.1]
          exact lookup_eraseKey _ _
        exact ⟨_, extract_paragraphs_keyError_head cfg h2 hs2 hlook⟩
  · intro cfg hits
    induction hits with
    | nil =>
      intro ps ms hs h
      simp only [embExtract, Except.ok.injEq, Prod.mk.injEq] at h
      obtain ⟨-, -, h3⟩ := h
      subst h3
      exact .nil
    | cons hit rest ih =>
      intro ps ms hs h
      simp only [embExtract] at h
      split at h
      · exact Except.noConfusion h
      · rename_i text s1 hpop1
        split at h
        · exact Except.noConfusion h
        · rename_i did s2 hpop2
          split at h
          · exact Except.noConfusion h
          · rename_i dname s3 hpop3
            split at h
            · exact Except.noConfusion h
            · rename_i hrest
              simp only [Except.ok.injEq, Prod.mk.injEq] at h
              obtain ⟨h1, h2, h3⟩ := h
              subst h1; subst h2; subst h3
              have e1 := pop_ok_snd hpop1
              have e2 := pop_ok_snd hpop2
              have e3 := pop_ok_snd hpop3
              refine .cons ?_ (ih _ _ _ hrest)
              show s3 = _
              rw [e3, e2, e1]

/-- Claim C9, witness: projecting one concrete hit removes its text field,
aliases the metadata to the mutated source, and a second projection of the
mutated hit raises instead of reproducing the result. -/
theorem c9_projection_mutates_sources_witness :
    extract_paragraphs flatCfg [flatHit] = .ok (["t"], [flatHitMeta], [flatHitAfter])
  ∧ List.Forall₂ (fun (h : Hit) (h2 : Hit) =>
        h2.source = Source.eraseKey h.source flatCfg.text_field)
      [flatHit] [flatHitAfter]
  ∧ List.Forall₂ (fun (m : Meta) (h2 : Hit) => m.custom_meta = h2.source)
      [flatHitMeta] [flatHitAfter]
  ∧ (∃ e, extract_paragraphs flatCfg [flatHitAfter] = .error e) := by
  have h := c9_projection_mutates_sources.1 flatCfg [flatHit] ["t"]
    [flatHitMeta] [flatHitAfter] (by decide)
  exact ⟨by decide, h.1, h.2.1, h.2.2 (by decide)⟩

/-- Claim C10. `get_document_ids_by_tags` with an empty tag mapping builds
a `bool` query with an empty `must` list; under the backend semantics
(empty `must` matches everything, result capped at `size`) it returns the
ids of the first 10000 documents of the index — in particular a non-empty
id list whenever the index is non-empty, not an empty list. -/
theorem c10_empty_tags_returns_all_ids :
    (∀ docs : List IndexedDoc,
        get_document_ids_by_tags docs [] = (docs.take 10000).map IndexedDoc.docId)
  ∧ (∀ docs : List IndexedDoc, docs ≠ [] → get_document_ids_by_tags docs [] ≠ []) := by
  have hmain : ∀ docs : List IndexedDoc,
      get_document_ids_by_tags docs [] = (docs.take 10000).map IndexedDoc.docId := by
    intro docs
    simp [get_document_ids_by_tags, searchBoolMust, tagTermQueries, List.all_nil,
          List.filter_true]
  refine ⟨hmain, ?_⟩
  intro docs hne
  cases docs with
  | nil => exact absurd rfl hne
  | cons d rest =>
    rw [hmain]
    intro hcon
    have hlen := congrArg List.length hcon
    simp [List.length_take] at hlen

/-- Claim C10, witness: a one-document index queried with the empty tag
mapping yields a non-empty id list. -/
theorem c10_empty_tags_returns_all_ids_witness :
    (([{ docId := "d1", fields := [] }] : List IndexedDoc) ≠ [])
  ∧ get_document_ids_by_tags [{ docId := "d1", fields := [] }] [] ≠ [] :=
  ⟨by decide,
   c10_empty_tags_returns_all_ids.2 [{ docId := "d1", fields := [] }] (by decide)⟩

end Haystack
